import Mathlib

/-!
Verification of the food-identification / product-matching pipeline of the
choices-count backend (`backend/server.js`).  The JavaScript source is embedded
shallowly: JS objects become Lean structures with `Option` fields (`none` models
`undefined`/`null`), JS truthiness defaults (`x || d`) become explicit helper
functions, network calls become an explicit database oracle
`Option String → Except String (List ProductRecord)` (`Except.error` models a
thrown fetch/parse error), and the per-request JSON reshaping becomes pure
functions.
-/

namespace ChoicesCount

/-! ### JavaScript value-semantics helpers

`x || d` in JS returns `d` whenever `x` is falsy (`undefined`, `null`, `0`,
`""`); these helpers reproduce that for the value shapes the source uses. -/

/-- JS `x || d` for numeric fields: `undefined`/`null`/`0` fall back to `d`. -/
def jsOrInt (o : Option Int) (d : Int) : Int :=
  match o with
  | some v => if v = 0 then d else v
  | none => d

/-- JS `x || d` for string fields: `undefined`/`null`/`""` fall back to `d`. -/
def jsOrStr (o : Option String) (d : String) : String :=
  match o with
  | some s => if s = "" then d else s
  | none => d

/-- JS `x || null` for string fields: falsy values collapse to `null`. -/
def jsOrNull (o : Option String) : Option String :=
  match o with
  | some s => if s = "" then none else some s
  | none => none

/-- JS `a || b` where both sides are possibly-absent strings. -/
def jsOrOpt (a b : Option String) : Option String :=
  match a with
  | some s => if s = "" then b else some s
  | none => b

/-- JS `x || d` for numeric scores (`0` is falsy). -/
def jsOrRat (o : Option Rat) (d : Rat) : Rat :=
  match o with
  | some v => if v = 0 then d else v
  | none => d

/-- JS template-literal stringification of a possibly-absent string
(`undefined` prints as `"undefined"`). -/
def jsShow (o : Option String) : String :=
  match o with
  | some s => s
  | none => "undefined"

/-- JS `Math.round` on an exact rational: round half toward positive infinity. -/
def jsRound (q : Rat) : Int :=
  ⌊q + 1/2⌋

/-! ### Substring search (JS `String.prototype.includes`) -/

/-- Char-list prefix test (case-sensitive). -/
def isPrefC : List Char → List Char → Bool
  | [], _ => true
  | _ :: _, [] => false
  | a :: as, b :: bs => (a == b) && isPrefC as bs

/-- Char-list substring test: does `needle` occur anywhere in the first list? -/
def hasSub : List Char → List Char → Bool
  | [], needle => isPrefC needle []
  | h :: t, needle => isPrefC needle (h :: t) || hasSub t needle

/-- JS `hay.includes(needle)` (case-sensitive substring search). -/
def strHasSub (hay needle : String) : Bool :=
  hasSub hay.data needle.data

/-- JS `s.toLowerCase()` (ASCII model). -/
def toLowerStr (s : String) : String :=
  String.mk (s.data.map Char.toLower)

/-! ### Data model: Open Food Facts product records and matches -/

/-- One raw Open Food Facts record, restricted to the fields the server reads
(lines 628-648 of `server.js`); every field may be absent. -/
structure ProductRecord where
  id : Option String := none
  idUnderscore : Option String := none
  product_name : Option String := none
  product_name_en : Option String := none
  brands : Option String := none
  code : Option String := none
  image_url : Option String := none
  image_front_url : Option String := none
  nutrition_grades : Option String := none
  nutriscore_grade : Option String := none
  categories : Option String := none
  labels : Option String := none
  labels_tags : Option (List String) := none
deriving Repr, DecidableEq

/-- Result of `extractCertificationStatus` (server.js lines 528-560). -/
structure CertInfo where
  organicStatus : String
  fairTradeStatus : String
  certificationLabels : List String
  allLabels : String
deriving Repr, DecidableEq

/-- Organic keyword list from `extractCertificationStatus`. -/
def organicKeywords : List String :=
  ["organic", "bio", "organique", "ecologique", "biologique"]

/-- Fair-trade keyword list from `extractCertificationStatus`. -/
def fairTradeKeywords : List String :=
  ["fair trade", "fairtrade", "commerce equitable", "max havelaar"]

/-- Tag predicate from `extractCertificationStatus`: note the raw tag is NOT
lowercased in the source, so this test is case-sensitive. -/
def isOrganicTag (t : String) : Bool :=
  strHasSub t "organic" || strHasSub t "bio" || strHasSub t "en:organic"

/-- Fair-trade tag predicate (case-sensitive on the raw tag, as in the source). -/
def isFairTradeTag (t : String) : Bool :=
  strHasSub t "fair-trade" || strHasSub t "fairtrade" || strHasSub t "en:fair-trade"

/-- `extractCertificationStatus(product)` — server.js lines 528-560.
The label text is lowercased before the keyword search; the tag list is
filtered with case-sensitive substring tests. -/
def extractCertificationStatus (p : ProductRecord) : CertInfo :=
  let labels := toLowerStr (p.labels.getD "")
  let labelsTags := p.labels_tags.getD []
  let organicTags := labelsTags.filter isOrganicTag
  let fairTradeTags := labelsTags.filter isFairTradeTag
  let organicStatus :=
    if organicTags.length > 0 || organicKeywords.any (fun k => strHasSub labels k)
    then "certified_organic" else "unknown"
  let fairTradeStatus :=
    if fairTradeTags.length > 0 || fairTradeKeywords.any (fun k => strHasSub labels k)
    then "certified_fair_trade" else "unknown"
  { organicStatus := organicStatus
    fairTradeStatus := fairTradeStatus
    certificationLabels := organicTags ++ fairTradeTags
    allLabels := labels }

/-- One normalized food/product candidate.  Every field that the JS object may
leave `undefined` is an `Option`; a request-supplied FoodItem may omit any
field. -/
structure FoodItem where
  name : Option String := none
  confidence : Option Int := none
  category : Option String := none
  type : Option String := none
  position : Option String := none
  quantity : Option Int := none
  brandInfo : Option String := none
  searchTerms : Option (List String) := none
  organicStatus : Option String := none
  fairTradeStatus : Option String := none
  certificationInfo : Option String := none
deriving Repr, DecidableEq

/-- One merged product match (the object literal at server.js lines 630-648). -/
structure ProductMatch where
  id : Option String
  name : String
  brand : String
  url : String
  image : Option String
  nutritionGrade : Option String
  categories : String
  labels : String
  labels_tags : List String
  organicStatusOFF : String
  fairTradeStatusOFF : String
  certificationLabels : List String
  organicStatus : Option String
  fairTradeStatus : Option String
  confidence : Option Int
deriving Repr, DecidableEq

/-- The per-record mapping inside `data.products.slice(0, 3).map(...)`
(server.js lines 628-648), merging the FoodItem's vision-model certification
assessment with the database-label inference. -/
def mapProductToMatch (fi : FoodItem) (p : ProductRecord) : ProductMatch :=
  let certificationInfo := extractCertificationStatus p
  { id := jsOrOpt p.id p.idUnderscore
    name := jsOrStr p.product_name (jsOrStr p.product_name_en "Unknown Product")
    brand := jsOrStr p.brands ""
    url := "https://world.openfoodfacts.org/product/" ++ jsShow (jsOrOpt p.code p.id)
    image := jsOrOpt p.image_url p.image_front_url
    nutritionGrade := jsOrOpt p.nutrition_grades p.nutriscore_grade
    categories := jsOrStr p.categories ""
    labels := jsOrStr p.labels ""
    labels_tags := p.labels_tags.getD []
    organicStatusOFF := certificationInfo.organicStatus
    fairTradeStatusOFF := certificationInfo.fairTradeStatus
    certificationLabels := certificationInfo.certificationLabels
    organicStatus :=
      if fi.organicStatus ≠ some "unknown" then fi.organicStatus
      else some certificationInfo.organicStatus
    fairTradeStatus :=
      if fi.fairTradeStatus ≠ some "unknown" then fi.fairTradeStatus
      else some certificationInfo.fairTradeStatus
    confidence := fi.confidence }

/-- The object literal pushed for a successful (or empty) lookup
(server.js lines 651-658 and 667-674): it always carries the certification
summary fields. -/
structure OkResult where
  searchTerm : Option String
  detectedConfidence : Option Int
  organicStatus : Option String
  fairTradeStatus : Option String
  certificationInfo : Option String
  products : List ProductMatch
deriving Repr, DecidableEq

/-- The object literal pushed in the per-item catch branch (server.js lines
678-683): only `searchTerm`, `detectedConfidence`, `products` and `error` —
no certification fields exist on this shape. -/
structure ErrResult where
  searchTerm : Option String
  detectedConfidence : Option Int
  products : List ProductMatch
  error : String
deriving Repr, DecidableEq

/-- One entry of the endpoint's `searchResults`: the two distinct object
shapes the source can push. -/
inductive SearchResult where
  | ok (r : OkResult)
  | err (r : ErrResult)
deriving Repr, DecidableEq

/-! ### Product Matcher (`POST /api/products/search`, server.js lines 595-703)

The Open Food Facts query is modelled as an oracle
`db : Option String → Except String (List ProductRecord)`: the argument is the
raw search-term value (`undefined` possible when the fallback `[foodItem.name]`
holds an absent name), `Except.ok ps` models a response whose `products` field
is `ps` (an absent `products` field is `ok []`, which the source treats the
same as an empty list), and `Except.error e` models a thrown fetch/JSON error.
Every search function also returns the list of terms actually queried, so that
"no external call was made" is provable. -/

/-- The database oracle: one lookup per raw search term. -/
abbrev ProductDb := Option String → Except String (List ProductRecord)

/-- `foodItem.searchTerms || [foodItem.name]` (server.js line 613).  A present
but empty array is truthy in JS and therefore kept as-is. -/
def termsOf (fi : FoodItem) : List (Option String) :=
  match fi.searchTerms with
  | some ts => ts.map some
  | none => [fi.name]

/-- The successful-lookup result record built at server.js lines 651-658. -/
def mkOkResult (fi : FoodItem) (t : Option String) (ps : List ProductRecord) :
    OkResult :=
  { searchTerm := t
    detectedConfidence := fi.confidence
    organicStatus := fi.organicStatus
    fairTradeStatus := fi.fairTradeStatus
    certificationInfo := fi.certificationInfo
    products := (ps.take 3).map (mapProductToMatch fi) }

/-- The empty result pushed when no term matched (server.js lines 667-674). -/
def mkEmptyResult (fi : FoodItem) : OkResult :=
  { searchTerm := fi.name
    detectedConfidence := fi.confidence
    organicStatus := fi.organicStatus
    fairTradeStatus := fi.fairTradeStatus
    certificationInfo := fi.certificationInfo
    products := [] }

/-- The error result pushed in the per-item catch (server.js lines 678-683). -/
def mkErrResult (fi : FoodItem) (e : String) : ErrResult :=
  { searchTerm := fi.name
    detectedConfidence := fi.confidence
    products := []
    error := e }

/-- The `for (const term of searchTerms)` loop (server.js lines 618-661):
query each term in order, stop at the first non-empty product list, abort with
the thrown error if a lookup fails.  Also returns the terms queried. -/
def searchLoop (db : ProductDb) (fi : FoodItem) :
    List (Option String) → Except String (Option OkResult) × List (Option String)
  | [] => (Except.ok none, [])
  | t :: ts =>
    match db t with
    | Except.error e => (Except.error e, [t])
    | Except.ok ps =>
      if ps.length > 0 then (Except.ok (some (mkOkResult fi t ps)), [t])
      else
        let rest := searchLoop db fi ts
        (rest.1, t :: rest.2)

/-- One FoodItem's lookup with its per-item try/catch (server.js lines
610-685), paired with the list of queried terms. -/
def searchFoodItemT (db : ProductDb) (fi : FoodItem) :
    SearchResult × List (Option String) :=
  match searchLoop db fi (termsOf fi) with
  | (Except.ok (some r), q) => (SearchResult.ok r, q)
  | (Except.ok none, q) => (SearchResult.ok (mkEmptyResult fi), q)
  | (Except.error e, q) => (SearchResult.err (mkErrResult fi e), q)

/-- The SearchResult recorded for one FoodItem. -/
def searchFoodItem (db : ProductDb) (fi : FoodItem) : SearchResult :=
  (searchFoodItemT db fi).1

/-- The `for (const foodItem of foodItems)` batch loop (server.js lines
607-685), with the concatenated query trace. -/
def batchSearchT (db : ProductDb) :
    List FoodItem → List SearchResult × List (Option String)
  | [] => ([], [])
  | fi :: fis =>
    let r := searchFoodItemT db fi
    let rest := batchSearchT db fis
    (r.1 :: rest.1, r.2 ++ rest.2)

/-- The `searchResults` list returned by the endpoint on valid input. -/
def batchSearch (db : ProductDb) (items : List FoodItem) : List SearchResult :=
  (batchSearchT db items).1

/-- The request body's `foodItems` field: absent/falsy, present but not an
array, or an array. -/
inductive BodyFoodItems where
  | missing
  | nonArray
  | arr (items : List FoodItem)
deriving Repr, DecidableEq

/-- The endpoint's response as it depends on the body. -/
inductive SearchResponse where
  | badRequest (error : String)
  | okRes (searchResults : List SearchResult) (totalSearches : Nat)
deriving Repr, DecidableEq

/-- `POST /api/products/search` (server.js lines 595-703): the guard
`!foodItems || !Array.isArray(foodItems) || foodItems.length === 0` returns a
400 before any lookup; otherwise the batch runs.  Paired with the query trace. -/
def productsSearchEndpoint (db : ProductDb) (b : BodyFoodItems) :
    SearchResponse × List (Option String) :=
  match b with
  | BodyFoodItems.missing => (SearchResponse.badRequest "foodItems array is required", [])
  | BodyFoodItems.nonArray => (SearchResponse.badRequest "foodItems array is required", [])
  | BodyFoodItems.arr [] => (SearchResponse.badRequest "foodItems array is required", [])
  | BodyFoodItems.arr (fi :: fis) =>
    let r := batchSearchT db (fi :: fis)
    (SearchResponse.okRes r.1 (fi :: fis).length, r.2)

/-! ### Generative-path normalizer (server.js lines 395-411 and 562-592)

`JSON.parse` of the provider's text is external; its outcome is an input:
`some sd` models a successfully parsed body (restricted to the two fields the
extractor reads, `products` and `foodItems`; a present non-array value of
either is outside the model), `none` models a parse failure. -/

/-- One entry of the parsed `products` array, restricted to the fields
`extractCompatibleFoodItems` copies; `name` is required by the prompt schema,
everything else may be absent. -/
structure ProductEntry where
  name : String
  type : Option String := none
  position : Option String := none
  quantity : Option Int := none
  confidence : Option Int := none
  brandInfo : Option String := none
  organicStatus : Option String := none
  fairTradeStatus : Option String := none
  certificationInfo : Option String := none
  openFoodFactsSearchTerms : Option (List String) := none
deriving Repr, DecidableEq

/-- One entry of the legacy `foodItems` array: a bare string or an object
with optional `name`, `food` and `confidence` fields. -/
inductive LegacyEntry where
  | str (s : String)
  | obj (name : Option String) (food : Option String) (confidence : Option Int)
deriving Repr, DecidableEq

/-- The parsed generative response body, restricted to the fields the
food-item extraction reads. -/
structure StructuredData where
  products : Option (List ProductEntry) := none
  foodItems : Option (List LegacyEntry) := none
deriving Repr, DecidableEq

/-- The per-product mapping of the `products` branch of
`extractCompatibleFoodItems` (server.js lines 566-578). -/
def prodEntryToItem (p : ProductEntry) : FoodItem :=
  { name := some p.name
    confidence := some (jsOrInt p.confidence 80)
    category := some "detected_food"
    type := some (jsOrStr p.type "unknown")
    position := some (jsOrStr p.position "unknown")
    quantity := some (jsOrInt p.quantity 1)
    brandInfo := jsOrNull p.brandInfo
    searchTerms := some (p.openFoodFactsSearchTerms.getD [p.name])
    organicStatus := some (jsOrStr p.organicStatus "unknown")
    fairTradeStatus := some (jsOrStr p.fairTradeStatus "unknown")
    certificationInfo := jsOrNull p.certificationInfo }

/-- The per-entry mapping of the legacy `foodItems` branch (server.js lines
582-588).  For a bare string, `item.confidence` is `undefined`, so the
confidence defaults to 80; for an object, `item.name || item.food` follows JS
truthiness. -/
def legacyEntryToItem (e : LegacyEntry) : FoodItem :=
  match e with
  | LegacyEntry.str s =>
    { name := some s
      confidence := some 80
      category := some "detected_food" }
  | LegacyEntry.obj n f c =>
    { name := jsOrOpt n f
      confidence := some (jsOrInt c 80)
      category := some "detected_food" }

/-! ### Heuristic text extraction (server.js lines 466-525)

The three food patterns `/food items?[:\s]*([^\.]+)/i`,
`/identified?[:\s]*([^\.]+)/i`, `/contains?[:\s]*([^\.]+)/i` and the three
portion patterns share one shape: a case-insensitive literal, an optional
trailing character, a greedy `[:\s]*` run, then a greedy non-empty `[^.]+`
capture.  `String.prototype.match` returns the leftmost match; the matcher
below reproduces the backtracking of the `[:\s]*` loop and of the optional
character. -/

/-- Is the char part of the `[:\s]` class? -/
def isWsColon (c : Char) : Bool :=
  c == ':' || c.isWhitespace

/-- Case-insensitively strip a literal prefix, returning the rest. -/
def dropPrefCI : List Char → List Char → Option (List Char)
  | [], l => some l
  | _ :: _, [] => none
  | a :: as, b :: bs =>
    if a.toLower == b.toLower then dropPrefCI as bs else none

/-- Greedy `[^.]+` capture. -/
def capDot (l : List Char) : List Char :=
  l.takeWhile (fun c => c ≠ '.')

/-- Match `[:\s]*([^\.]+)` with backtracking: consume the maximal `[:\s]` run;
if the capture would be empty (next char is `.` or end of input), give one
class character back to the capture, which then consists of that single
character; fail only if the run is empty as well. -/
def wsThenCap (l : List Char) : Option (List Char) :=
  let n := (l.takeWhile isWsColon).length
  let cap := capDot (l.drop n)
  if cap ≠ [] then some cap
  else if n > 0 then some (capDot (l.drop (n - 1)))
  else none

/-- Try the pattern at the current position: literal, then greedily the
optional character (backtracking to the no-character branch on failure), then
`[:\s]*([^\.]+)`. -/
def tryPatAt (lit : List Char) (optC : Option Char) (l : List Char) :
    Option (List Char) :=
  match dropPrefCI lit l with
  | none => none
  | some rest =>
    match optC with
    | none => wsThenCap rest
    | some c =>
      match rest with
      | [] => wsThenCap rest
      | d :: rest2 =>
        if d.toLower == c.toLower then
          match wsThenCap rest2 with
          | some cap => some cap
          | none => wsThenCap rest
        else wsThenCap rest

/-- Leftmost match of the pattern over the text (JS `text.match(pat)`),
returning the capture group. -/
def scanPat (lit : List Char) (optC : Option Char) : List Char → Option (List Char)
  | [] => tryPatAt lit optC []
  | c :: rest =>
    match tryPatAt lit optC (c :: rest) with
    | some cap => some cap
    | none => scanPat lit optC rest

/-- String-level wrapper for the capture of one `LIT C?[:\s]*([^\.]+)` pattern. -/
def matchCapture (lit : String) (optC : Option Char) (text : String) :
    Option String :=
  (scanPat lit.data optC text.data).map (fun l => String.mk l)

/-- JS `s.split(/[,;]/)` (empty pieces preserved). -/
def splitCommaSemi : List Char → List (List Char)
  | [] => [[]]
  | c :: rest =>
    if c == ',' || c == ';' then [] :: splitCommaSemi rest
    else
      match splitCommaSemi rest with
      | [] => [[c]]
      | piece :: pieces => (c :: piece) :: pieces

/-- JS `s.trim()` (whitespace model). -/
def trimChars (l : List Char) : List Char :=
  ((l.dropWhile Char.isWhitespace).reverse.dropWhile Char.isWhitespace).reverse

/-- JS `.map((item, index) => ...)` with an explicit start index. -/
def mapWithIdx (f : Nat → α → β) : Nat → List α → List β
  | _, [] => []
  | i, a :: as => f i a :: mapWithIdx f (i + 1) as

/-- The raw item strings accumulated by the pattern loop of
`extractFoodItems` (server.js lines 468-482): every pattern that matches
contributes its capture, split on commas/semicolons and trimmed. -/
def rawFoodItems (text : String) : List String :=
  let pats : List (String × Option Char) :=
    [("food item", some 's'), ("identifie", some 'd'), ("contain", some 's')]
  pats.foldl
    (fun acc pat =>
      match matchCapture pat.1 pat.2 text with
      | some cap =>
        acc ++ (splitCommaSemi cap.data).map (fun piece => String.mk (trimChars piece))
      | none => acc)
    []

/-- `extractFoodItems(text)` (server.js lines 466-489): keep at most 5 items,
with confidence `Math.max(60, 95 - index * 10)`. -/
def extractFoodItems (text : String) : List FoodItem :=
  mapWithIdx
    (fun i nm =>
      { name := some nm
        confidence := some (max 60 (95 - 10 * (i : Int)))
        category := some "detected_food" })
    0 ((rawFoodItems text).take 5)

/-! ### Nutrition / portion heuristics (server.js lines 491-525)

The nutrition patterns are `/(\d+)\s*(?:cal|calories)/i` and
`/(\d+(?:\.\d+)?)\s*g?\s*protein|carb|fat/i`-shaped.  Both reduce (for these
literals, which never begin with a digit, whitespace or `g`) to: a maximal
digit run, an optional fractional part, all following whitespace, an optional
`g`, all following whitespace, then the literal. -/

/-- Case-insensitive literal prefix test. -/
def isPrefCIB : List Char → List Char → Bool
  | [], _ => true
  | _ :: _, [] => false
  | a :: as, b :: bs => (a.toLower == b.toLower) && isPrefCIB as bs

/-- Match `\s*g?\s*LIT` (case-insensitively) when `useG` is set, else
`\s*LIT`; the reduction of the regex backtracking is sound because the
literals start with a letter other than `g`. -/
def numTailOk (useG : Bool) (lit : List Char) (r : List Char) : Bool :=
  let r1 := r.dropWhile Char.isWhitespace
  if isPrefCIB lit r1 then true
  else if useG then
    match r1 with
    | [] => false
    | c :: r2 => c.toLower == 'g' && isPrefCIB lit (r2.dropWhile Char.isWhitespace)
  else false

/-- Try the numeric pattern at the current position, returning the captured
number string; the greedy fractional part backtracks to the integer-only
capture when the tail fails. -/
def numMatchAt (allowFrac useG : Bool) (lit : List Char) (l : List Char) :
    Option (List Char) :=
  let digits := l.takeWhile Char.isDigit
  if digits.isEmpty then none
  else
    let rest0 := l.drop digits.length
    let tryPlain : Option (List Char) :=
      if numTailOk useG lit rest0 then some digits else none
    if allowFrac then
      match rest0 with
      | '.' :: r1 =>
        let frac := r1.takeWhile Char.isDigit
        if frac.isEmpty then tryPlain
        else if numTailOk useG lit (r1.drop frac.length) then
          some (digits ++ '.' :: frac)
        else tryPlain
      | _ => tryPlain
    else tryPlain

/-- Leftmost match of a numeric pattern over the text. -/
def scanNum (allowFrac useG : Bool) (lit : List Char) : List Char → Option (List Char)
  | [] => none
  | c :: rest =>
    match numMatchAt allowFrac useG lit (c :: rest) with
    | some cap => some cap
    | none => scanNum allowFrac useG lit rest

/-- The `calories` capture of `extractNutritionalInfo`. -/
def nutritionCalories (text : String) : Option String :=
  (scanNum false false "cal".data text.data).map (fun l => String.mk l)

/-- The `protein` capture of `extractNutritionalInfo`. -/
def nutritionProtein (text : String) : Option String :=
  (scanNum true true "protein".data text.data).map (fun l => String.mk l)

/-- The `carbs` capture of `extractNutritionalInfo`. -/
def nutritionCarbs (text : String) : Option String :=
  (scanNum true true "carb".data text.data).map (fun l => String.mk l)

/-- The `fat` capture of `extractNutritionalInfo`. -/
def nutritionFat (text : String) : Option String :=
  (scanNum true true "fat".data text.data).map (fun l => String.mk l)

/-- The nutrition object: a key is present exactly when its pattern matched. -/
structure NutritionInfo where
  calories : Option String := none
  protein : Option String := none
  carbs : Option String := none
  fat : Option String := none
deriving Repr, DecidableEq

/-- `extractNutritionalInfo(text)` (server.js lines 491-508): `null` when no
pattern matched, else the object of captures. -/
def extractNutritionalInfo (text : String) : Option NutritionInfo :=
  let c := nutritionCalories text
  let p := nutritionProtein text
  let cb := nutritionCarbs text
  let f := nutritionFat text
  if c.isNone && p.isNone && cb.isNone && f.isNone then none
  else some { calories := c, protein := p, carbs := cb, fat := f }

/-- `extractPortionInfo(text)` (server.js lines 510-525): the first matching
pattern's capture, trimmed; `null` when none match. -/
def extractPortionInfo (text : String) : Option String :=
  match matchCapture "portion" none text with
  | some m => some (String.mk (trimChars m.data))
  | none =>
    match matchCapture "serving" none text with
    | some m => some (String.mk (trimChars m.data))
    | none =>
      match matchCapture "amount" none text with
      | some m => some (String.mk (trimChars m.data))
      | none => none

/-- `extractCompatibleFoodItems(structuredData, text)` (server.js lines
562-592): the `products` branch, else the legacy `foodItems` branch, else the
heuristic text extraction.  A present empty array is truthy in JS and selects
its branch. -/
def extractCompatibleFoodItems (sd : StructuredData) (text : String) :
    List FoodItem :=
  match sd.products with
  | some ps => ps.map prodEntryToItem
  | none =>
    match sd.foodItems with
    | some es => es.map legacyEntryToItem
    | none => extractFoodItems text

/-- The fallback object built when `JSON.parse` throws (server.js lines
403-410), restricted to the fields `extractCompatibleFoodItems` reads: its
`foodItems` are the heuristic items (objects with `name` and `confidence`,
no `food` field). -/
def fallbackStructured (text : String) : StructuredData :=
  { products := none
    foodItems :=
      some ((extractFoodItems text).map
        (fun it => LegacyEntry.obj it.name none it.confidence)) }

/-- The `results.foodItems` value of `POST /api/images/analyze-openai`
(server.js lines 398-429): normalization of one generative response, where
`parsed` is the `JSON.parse` outcome. -/
def analyzeOpenAIFoodItems (parsed : Option StructuredData) (text : String) :
    List FoodItem :=
  match parsed with
  | some sd => extractCompatibleFoodItems sd text
  | none => extractCompatibleFoodItems (fallbackStructured text) text

/-! ### Structured annotator path (`POST /api/images/analyze`, server.js
lines 196-237) -/

/-- One label annotation (spec guarantees `description` and `score`). -/
structure LabelAnnotation where
  description : String
  score : Rat
deriving Repr, DecidableEq

/-- One text annotation; both fields may be absent. -/
structure TextAnnotation where
  description : Option String := none
  confidence : Option Rat := none
deriving Repr, DecidableEq

/-- One localized object annotation. -/
structure ObjectAnnotation where
  name : String
  score : Rat
deriving Repr, DecidableEq

/-- One entry of `detectedWords`. -/
structure DetectedWord where
  text : Option String
  confidence : Int
deriving Repr, DecidableEq

/-- The `extractedText` object. -/
structure ExtractedText where
  fullText : String
  detectedWords : List DetectedWord
deriving Repr, DecidableEq

/-- One entry of the `objects` list. -/
structure DetectedObject where
  name : String
  confidence : Int
  category : String
deriving Repr, DecidableEq

/-- The `results` object of the analyze endpoint (metadata fields that are
timestamps or constants are omitted). -/
structure AnalyzeResults where
  foodItems : List FoodItem
  extractedText : Option ExtractedText
  objects : List DetectedObject
  totalLabels : Nat
deriving Repr, DecidableEq

/-- The `analysisResults.results` construction (server.js lines 201-237):
labels filtered at score > 0.6, objects at score > 0.5, confidence
`Math.round(score * 100)`, text block surfaced separately. -/
def analyzeResults (labels : List LabelAnnotation) (texts : List TextAnnotation)
    (objects : List ObjectAnnotation) : AnalyzeResults :=
  { foodItems :=
      (labels.filter (fun l => decide ((3 : Rat)/5 < l.score))).map
        (fun l =>
          { name := some l.description
            confidence := some (jsRound (l.score * 100))
            category := some "detected_food" })
    extractedText :=
      match texts with
      | [] => none
      | t :: ts =>
        some { fullText := jsOrStr t.description ""
               detectedWords :=
                 ts.map (fun w =>
                   { text := w.description
                     confidence := jsRound (jsOrRat w.confidence (4/5) * 100) }) }
    objects :=
      (objects.filter (fun o => decide ((1 : Rat)/2 < o.score))).map
        (fun o =>
          { name := o.name
            confidence := jsRound (o.score * 100)
            category := "detected_object" })
    totalLabels := labels.length }

/-! ## Theorems -/

/-- Specification-level "first good match wins": the first term (in order)
whose lookup yields at least one record, together with those records. -/
def firstHit (lookup : Option String → List ProductRecord) :
    List (Option String) → Option (Option String × List ProductRecord)
  | [] => none
  | t :: ts => if (lookup t).length > 0 then some (t, lookup t) else firstHit lookup ts

/-- The term loop agrees with `firstHit` on a database that does not throw,
and queries exactly the failing prefix plus the first successful term. -/
lemma searchLoop_spec (db : ProductDb) (lookup : Option String → List ProductRecord)
    (fi : FoodItem) :
    ∀ terms : List (Option String), (∀ t ∈ terms, db t = Except.ok (lookup t)) →
      searchLoop db fi terms =
        match firstHit lookup terms with
        | some (t, ps) =>
          (Except.ok (some (mkOkResult fi t ps)),
           terms.takeWhile (fun s => (lookup s).isEmpty) ++ [t])
        | none => (Except.ok none, terms) := by
  intro terms
  induction terms with
  | nil => intro _; rfl
  | cons t ts ih =>
    intro h
    have ht : db t = Except.ok (lookup t) := h t (List.mem_cons_self t ts)
    have hts : ∀ s ∈ ts, db s = Except.ok (lookup s) :=
      fun s hs => h s (List.mem_cons_of_mem t hs)
    cases hlk : lookup t with
    | nil =>
      have hrec := ih hts
      cases hfh : firstHit lookup ts with
      | none =>
        simp [searchLoop, ht, hlk, firstHit, List.takeWhile_cons, hrec, hfh]
      | some pr =>
        obtain ⟨t2, ps2⟩ := pr
        simp [searchLoop, ht, hlk, firstHit, List.takeWhile_cons, hrec, hfh]
    | cons p ps2 =>
      simp [searchLoop, ht, hlk, firstHit, List.takeWhile_cons]

/-- C2.  The Product Matcher tries the FoodItem's search terms in order,
queries the database once per tried term, stops at the first term whose query
returns at least one record (its result is built from that term's records
only — no merging), and when no term yields a record it returns an
empty-products result that records the item's own name as the search term. -/
theorem matcher_first_hit (db : ProductDb) (lookup : Option String → List ProductRecord)
    (fi : FoodItem) (h : ∀ t ∈ termsOf fi, db t = Except.ok (lookup t)) :
    (∀ t ps, firstHit lookup (termsOf fi) = some (t, ps) →
      searchFoodItemT db fi =
        (SearchResult.ok (mkOkResult fi t ps),
         (termsOf fi).takeWhile (fun s => (lookup s).isEmpty) ++ [t])) ∧
    (firstHit lookup (termsOf fi) = none →
      searchFoodItemT db fi = (SearchResult.ok (mkEmptyResult fi), termsOf fi)) := by
  have hspec := searchLoop_spec db lookup fi (termsOf fi) h
  constructor
  · intro t ps hfh
    rw [hfh] at hspec
    simp [searchFoodItemT, hspec]
  · intro hfh
    rw [hfh] at hspec
    simp [searchFoodItemT, hspec]

/-- Witness for C2: the spec's scenario, a FoodItem with search terms
`["gala apple", "apple"]` against a database where only "gala apple" hits. -/
def wRecord : ProductRecord := { product_name := some "Gala" }

/-- Witness database for C2. -/
def wDb : ProductDb :=
  fun t => if t = some "gala apple" then Except.ok [wRecord] else Except.ok []

/-- Witness lookup table for C2. -/
def wLookup : Option String → List ProductRecord :=
  fun t => if t = some "gala apple" then [wRecord] else []

/-- Witness FoodItem for C2. -/
def wItem : FoodItem :=
  { name := some "Gala Apple", confidence := some 90
    searchTerms := some ["gala apple", "apple"] }

/-- C2 witness: the first term wins and is the only term queried. -/
theorem matcher_first_hit_witness :
    (∀ t ∈ termsOf wItem, wDb t = Except.ok (wLookup t)) ∧
    searchFoodItemT wDb wItem =
      (SearchResult.ok (mkOkResult wItem (some "gala apple") [wRecord]),
       [some "gala apple"]) := by
  have h : ∀ t ∈ termsOf wItem, wDb t = Except.ok (wLookup t) := by
    intro t ht
    simp [termsOf, wItem] at ht
    rcases ht with rfl | rfl <;> rfl
  refine ⟨h, ?_⟩
  have h2 := (matcher_first_hit wDb wLookup wItem h).1 (some "gala apple") [wRecord]
    (by decide)
  rw [h2]
  rfl

/-- C3.  A thrown lookup never aborts the batch: the result list has one
entry per input item in input order; an item whose term loop throws gets the
error-branch result (empty products plus the error message) and every other
item gets its normal result. -/
theorem batch_isolates_failures (db : ProductDb) (items : List FoodItem) :
    (batchSearch db items).length = items.length ∧
    (∀ i : Nat, (batchSearch db items)[i]? =
      (items[i]?).map (fun fi => searchFoodItem db fi)) ∧
    (∀ fi e, (searchLoop db fi (termsOf fi)).1 = Except.error e →
      searchFoodItem db fi = SearchResult.err (mkErrResult fi e)) ∧
    (∀ fi o, (searchLoop db fi (termsOf fi)).1 = Except.ok o →
      ∃ r, searchFoodItem db fi = SearchResult.ok r) := by
  have hmap : ∀ l : List FoodItem, batchSearch db l = l.map (fun fi => searchFoodItem db fi) := by
    intro l
    induction l with
    | nil => rfl
    | cons fi fis ih =>
      simp [batchSearch, batchSearchT, searchFoodItem] at ih ⊢
      exact ih
  refine ⟨?_, ?_, ?_, ?_⟩
  · rw [hmap]; exact List.length_map items _
  · intro i; rw [hmap]; exact List.getElem?_map _ items i
  · intro fi e he
    rcases hsl : searchLoop db fi (termsOf fi) with ⟨a, q⟩
    rw [hsl] at he
    simp at he
    simp [searchFoodItem, searchFoodItemT, hsl, he]
  · intro fi o ho
    rcases hsl : searchLoop db fi (termsOf fi) with ⟨a, q⟩
    rw [hsl] at ho
    simp at ho
    subst ho
    cases o with
    | none => exact ⟨mkEmptyResult fi, by simp [searchFoodItem, searchFoodItemT, hsl]⟩
    | some r => exact ⟨r, by simp [searchFoodItem, searchFoodItemT, hsl]⟩

/-- Witness database for C3: the lookup for "bananas" throws, all others
return no products. -/
def wDb3 : ProductDb :=
  fun t => if t = some "bananas" then Except.error "network down" else Except.ok []

/-- Witness items for C3: three items, the second one fails. -/
def wItems3 : List FoodItem :=
  [{ name := some "apple", confidence := some 90 },
   { name := some "bananas", confidence := some 70 },
   { name := some "cherry", confidence := some 80 }]

/-- C3 witness: length 3 is preserved, item 2 carries the error result and
items 1 and 3 carry normal results. -/
theorem batch_isolates_failures_witness :
    (batchSearch wDb3 wItems3).length = 3 ∧
    (batchSearch wDb3 wItems3)[1]? =
      some (SearchResult.err
        { searchTerm := some "bananas", detectedConfidence := some 70
          products := [], error := "network down" }) ∧
    (batchSearch wDb3 wItems3)[0]? =
      some (SearchResult.ok (mkEmptyResult { name := some "apple", confidence := some 90 })) ∧
    (batchSearch wDb3 wItems3)[2]? =
      some (SearchResult.ok (mkEmptyResult { name := some "cherry", confidence := some 80 })) := by
  have h := batch_isolates_failures wDb3 wItems3
  refine ⟨by rw [h.1]; rfl, ?_, by decide, by decide⟩
  have h1 := h.2.1 1
  rw [h1]
  decide

/-- C10.  When an item's term loop throws, the recorded SearchResult is the
error-branch object: it carries exactly the item name as `searchTerm`, the
detected confidence, an empty `products` list and the error message — by the
shape of `ErrResult` it has no `organicStatus`, `fairTradeStatus` or
`certificationInfo` fields, while every non-error result is an `OkResult`,
which always carries those three fields. -/
theorem error_result_shape (db : ProductDb) (fi : FoodItem) :
    (∀ e, (searchLoop db fi (termsOf fi)).1 = Except.error e →
      searchFoodItem db fi = SearchResult.err
        { searchTerm := fi.name, detectedConfidence := fi.confidence
          products := [], error := e }) ∧
    (∀ o, (searchLoop db fi (termsOf fi)).1 = Except.ok o →
      ∃ r : OkResult, searchFoodItem db fi = SearchResult.ok r) := by
  constructor
  · intro e he
    rcases hsl : searchLoop db fi (termsOf fi) with ⟨a, q⟩
    rw [hsl] at he
    simp at he
    simp [searchFoodItem, searchFoodItemT, hsl, he, mkErrResult]
  · intro o ho
    rcases hsl : searchLoop db fi (termsOf fi) with ⟨a, q⟩
    rw [hsl] at ho
    simp at ho
    subst ho
    cases o with
    | none => exact ⟨mkEmptyResult fi, by simp [searchFoodItem, searchFoodItemT, hsl]⟩
    | some r => exact ⟨r, by simp [searchFoodItem, searchFoodItemT, hsl]⟩

/-- Witness database for C10: every lookup throws. -/
def wDb10 : ProductDb := fun _ => Except.error "boom"

/-- Witness FoodItem for C10. -/
def wItem10 : FoodItem := { name := some "kale", confidence := some 55 }

/-- C10 witness: a throwing lookup produces exactly the four-field error
object. -/
theorem error_result_shape_witness :
    (searchLoop wDb10 wItem10 (termsOf wItem10)).1 = Except.error "boom" ∧
    searchFoodItem wDb10 wItem10 = SearchResult.err
      { searchTerm := some "kale", detectedConfidence := some 55
        products := [], error := "boom" } := by
  have h1 : (searchLoop wDb10 wItem10 (termsOf wItem10)).1 = Except.error "boom" := rfl
  exact ⟨h1, (error_result_shape wDb10 wItem10).1 "boom" h1⟩

/-- C8.  A missing, non-array or empty `foodItems` body yields the 400
response and no database lookup is performed (the query trace is empty). -/
theorem search_endpoint_validation (db : ProductDb) (b : BodyFoodItems)
    (h : b = BodyFoodItems.missing ∨ b = BodyFoodItems.nonArray ∨
         b = BodyFoodItems.arr []) :
    productsSearchEndpoint db b =
      (SearchResponse.badRequest "foodItems array is required", []) := by
  rcases h with h | h | h <;> subst h <;> rfl

/-- C8 witness: the empty-array body at a concrete database. -/
theorem search_endpoint_validation_witness :
    (BodyFoodItems.arr ([] : List FoodItem) = BodyFoodItems.missing ∨
     BodyFoodItems.arr ([] : List FoodItem) = BodyFoodItems.nonArray ∨
     BodyFoodItems.arr ([] : List FoodItem) = BodyFoodItems.arr []) ∧
    productsSearchEndpoint (fun _ => Except.ok []) (BodyFoodItems.arr []) =
      (SearchResponse.badRequest "foodItems array is required", []) :=
  ⟨Or.inr (Or.inr rfl),
   search_endpoint_validation (fun _ => Except.ok []) (BodyFoodItems.arr [])
     (Or.inr (Or.inr rfl))⟩

/-- The organic signal of `extractCertificationStatus`: some tag contains
(case-sensitively) "organic", "bio" or "en:organic", or the lowercased label
text contains an organic keyword. -/
def organicSignal (p : ProductRecord) : Bool :=
  (p.labels_tags.getD []).any isOrganicTag ||
    organicKeywords.any (fun k => strHasSub (toLowerStr (p.labels.getD "")) k)

/-- The fair-trade signal of `extractCertificationStatus`. -/
def fairTradeSignal (p : ProductRecord) : Bool :=
  (p.labels_tags.getD []).any isFairTradeTag ||
    fairTradeKeywords.any (fun k => strHasSub (toLowerStr (p.labels.getD "")) k)

/-- A filtered list is non-empty exactly when some element satisfies the
predicate. -/
lemma filter_pos_any (f : α → Bool) (l : List α) :
    decide (0 < (l.filter f).length) = l.any f := by
  induction l with
  | nil => rfl
  | cons a t ih =>
    cases hf : f a with
    | true => simp [List.filter_cons, hf]
    | false => simp [List.filter_cons, hf, ← ih]

/-- The inferred organic status is driven by `organicSignal`. -/
lemma certStatus_organic (p : ProductRecord) :
    (extractCertificationStatus p).organicStatus =
      (if organicSignal p then "certified_organic" else "unknown") := by
  simp only [extractCertificationStatus, organicSignal, ← filter_pos_any]

/-- The inferred fair-trade status is driven by `fairTradeSignal`. -/
lemma certStatus_fairTrade (p : ProductRecord) :
    (extractCertificationStatus p).fairTradeStatus =
      (if fairTradeSignal p then "certified_fair_trade" else "unknown") := by
  simp only [extractCertificationStatus, fairTradeSignal, ← filter_pos_any]

/-- C1 (amended).  For every FoodItem and product record, the merged
`organicStatus` equals the FoodItem's own value whenever that value differs
from "unknown" (the vision-model assessment takes precedence), and otherwise
is "certified_organic" exactly when the database signal fires — where the
signal searches the lowercased label text case-insensitively but matches the
raw `labels_tags` entries case-sensitively.  The same holds independently for
`fairTradeStatus`. -/
theorem certification_precedence (fi : FoodItem) (p : ProductRecord) :
    (fi.organicStatus ≠ some "unknown" →
      (mapProductToMatch fi p).organicStatus = fi.organicStatus) ∧
    (fi.organicStatus = some "unknown" →
      (mapProductToMatch fi p).organicStatus =
        some (if organicSignal p then "certified_organic" else "unknown")) ∧
    (fi.fairTradeStatus ≠ some "unknown" →
      (mapProductToMatch fi p).fairTradeStatus = fi.fairTradeStatus) ∧
    (fi.fairTradeStatus = some "unknown" →
      (mapProductToMatch fi p).fairTradeStatus =
        some (if fairTradeSignal p then "certified_fair_trade" else "unknown")) := by
  refine ⟨fun h => ?_, fun h => ?_, fun h => ?_, fun h => ?_⟩
  · simp [mapProductToMatch, h]
  · simp [mapProductToMatch, h, certStatus_organic]
  · simp [mapProductToMatch, h]
  · simp [mapProductToMatch, h, certStatus_fairTrade]

/-- The organic signal as the claim words it: case-insensitive in the label
text AND in the `labels_tags` entries.  (Second definition, following the
claim's words, for comparison with the source behaviour.) -/
def claimOrganicSignalCI (p : ProductRecord) : Bool :=
  (p.labels_tags.getD []).any (fun t => isOrganicTag (toLowerStr t)) ||
    organicKeywords.any (fun k => strHasSub (toLowerStr (p.labels.getD "")) k)

/-- Counterexample FoodItem for C1: vision assessment "unknown". -/
def cexItemC1 : FoodItem := { name := some "coffee", organicStatus := some "unknown" }

/-- Counterexample record for C1: an upper-case organic tag. -/
def cexRecordC1 : ProductRecord := { labels_tags := some ["EN:ORGANIC"] }

/-- C1 counterexample: with vision status "unknown" and a record whose only
organic evidence is the upper-case tag "EN:ORGANIC", a case-insensitive tag
search (the claim's reading) finds an organic signal, yet the merged status
stays "unknown" because the source matches tags case-sensitively. -/
theorem certification_tag_case_counterexample :
    cexItemC1.organicStatus = some "unknown" ∧
    claimOrganicSignalCI cexRecordC1 = true ∧
    (mapProductToMatch cexItemC1 cexRecordC1).organicStatus = some "unknown" ∧
    (mapProductToMatch cexItemC1 cexRecordC1).organicStatus ≠
      some "certified_organic" := by
  decide

/-- Witness FoodItem for C1: a definite vision assessment. -/
def wItemC1 : FoodItem :=
  { name := some "coffee", organicStatus := some "likely_organic"
    fairTradeStatus := some "unknown" }

/-- Witness record for C1: lowercase organic and fair-trade tags. -/
def wRecordC1 : ProductRecord :=
  { labels := some "Fair Trade certified", labels_tags := some ["en:organic"] }

/-- C1 witness: the vision value wins for organic, and the database signal
decides fair-trade because the vision value is "unknown". -/
theorem certification_precedence_witness :
    wItemC1.organicStatus ≠ some "unknown" ∧
    wItemC1.fairTradeStatus = some "unknown" ∧
    (mapProductToMatch wItemC1 wRecordC1).organicStatus = some "likely_organic" ∧
    (mapProductToMatch wItemC1 wRecordC1).fairTradeStatus =
      some "certified_fair_trade" := by
  have hne : wItemC1.organicStatus ≠ some "unknown" := by decide
  have heq : wItemC1.fairTradeStatus = some "unknown" := rfl
  have h := certification_precedence wItemC1 wRecordC1
  refine ⟨hne, heq, ?_, ?_⟩
  · rw [h.1 hne]; rfl
  · rw [h.2.2.2 heq]; decide

/-- C5 (amended).  When the parsed body has a `products` array, normalization
yields one FoodItem per entry in order, copying the fields with JS `||`
defaulting: confidence is the entry's confidence unless absent or 0 (then 80),
quantity defaults to 1 when absent or 0, type/position default to "unknown"
when absent or empty, brandInfo/certificationInfo collapse to null when absent
or empty, organicStatus/fairTradeStatus default to "unknown" when absent or
empty, and searchTerms is the entry's `openFoodFactsSearchTerms` whenever that
field is present — even when it is an empty list — and `[name]` only when the
field is absent. -/
theorem products_normalization (sd : StructuredData) (text : String)
    (ps : List ProductEntry) (h : sd.products = some ps) :
    extractCompatibleFoodItems sd text =
      ps.map (fun p =>
        { name := some p.name
          confidence := some (jsOrInt p.confidence 80)
          category := some "detected_food"
          type := some (jsOrStr p.type "unknown")
          position := some (jsOrStr p.position "unknown")
          quantity := some (jsOrInt p.quantity 1)
          brandInfo := jsOrNull p.brandInfo
          searchTerms := some (p.openFoodFactsSearchTerms.getD [p.name])
          organicStatus := some (jsOrStr p.organicStatus "unknown")
          fairTradeStatus := some (jsOrStr p.fairTradeStatus "unknown")
          certificationInfo := jsOrNull p.certificationInfo }) ∧
    (extractCompatibleFoodItems sd text).length = ps.length ∧
    (∀ i : Nat, (extractCompatibleFoodItems sd text)[i]? =
      ps[i]?.map prodEntryToItem) := by
  have hmain : extractCompatibleFoodItems sd text = ps.map prodEntryToItem := by
    simp [extractCompatibleFoodItems, h]
  refine ⟨?_, ?_, ?_⟩
  · rw [hmain]; rfl
  · rw [hmain]; exact List.length_map ps _
  · intro i; rw [hmain]; exact List.getElem?_map _ ps i

/-- Counterexample product entry for C5: a present-but-empty search-term list
and a present zero confidence. -/
def cexEntryC5 : ProductEntry :=
  { name := "X", confidence := some 0, openFoodFactsSearchTerms := some [] }

/-- Counterexample structured body for C5. -/
def cexStructuredC5 : StructuredData := { products := some [cexEntryC5] }

/-- C5 counterexample: for the entry with `openFoodFactsSearchTerms: []` and
`confidence: 0` the claim predicts searchTerms `["X"]` (non-empty fallback)
and confidence 0 (copied, not absent), but the source's `||` defaults keep
the empty list (a truthy array) and replace the falsy 0 with 80. -/
theorem products_normalization_counterexample :
    extractCompatibleFoodItems cexStructuredC5 "" =
      [{ name := some "X", confidence := some 80, category := some "detected_food"
         type := some "unknown", position := some "unknown", quantity := some 1
         brandInfo := none, searchTerms := some [], organicStatus := some "unknown"
         fairTradeStatus := some "unknown", certificationInfo := none }] ∧
    (some ([] : List String) ≠ some ["X"]) ∧ ((80 : Int) ≠ 0) := by
  decide

/-- Witness entry for C5: all fields present and truthy. -/
def wEntryC5 : ProductEntry :=
  { name := "Gala Apple", type := some "fresh_produce", position := some "center"
    quantity := some 3, confidence := some 90, brandInfo := some "Acme"
    organicStatus := some "certified_organic", fairTradeStatus := some "unknown"
    certificationInfo := some "USDA Organic"
    openFoodFactsSearchTerms := some ["gala apple", "apple"] }

/-- Witness structured body for C5. -/
def wStructuredC5 : StructuredData := { products := some [wEntryC5] }

/-- C5 witness: the spec's scenario entry normalizes to one FoodItem copying
every field, with searchTerms `["gala apple", "apple"]`. -/
theorem products_normalization_witness :
    wStructuredC5.products = some [wEntryC5] ∧
    extractCompatibleFoodItems wStructuredC5 "ignored" =
      [{ name := some "Gala Apple", confidence := some 90
         category := some "detected_food", type := some "fresh_produce"
         position := some "center", quantity := some 3, brandInfo := some "Acme"
         searchTerms := some ["gala apple", "apple"]
         organicStatus := some "certified_organic", fairTradeStatus := some "unknown"
         certificationInfo := some "USDA Organic" }] := by
  have h := (products_normalization wStructuredC5 "ignored" [wEntryC5] rfl).1
  exact ⟨rfl, by rw [h]; decide⟩

/-- C4.  The structured-annotator normalizer keeps exactly the labels with
score strictly above 0.6 and the objects with score strictly above 0.5, in
order, assigning confidence `round(score * 100)`; the extracted text block is
surfaced in the separate `extractedText` field and never affects the FoodItem
list. -/
theorem structured_normalizer_thresholds (labels : List LabelAnnotation)
    (texts : List TextAnnotation) (objects : List ObjectAnnotation) :
    (analyzeResults labels texts objects).foodItems =
      (labels.filter (fun l => decide ((3 : Rat)/5 < l.score))).map
        (fun l =>
          { name := some l.description
            confidence := some (jsRound (l.score * 100))
            category := some "detected_food" }) ∧
    (analyzeResults labels texts objects).objects =
      (objects.filter (fun o => decide ((1 : Rat)/2 < o.score))).map
        (fun o =>
          { name := o.name, confidence := jsRound (o.score * 100)
            category := "detected_object" }) ∧
    (∀ f ∈ (analyzeResults labels texts objects).foodItems,
      ∃ l ∈ labels, (3 : Rat)/5 < l.score ∧
        f = { name := some l.description
              confidence := some (jsRound (l.score * 100))
              category := some "detected_food" }) ∧
    (∀ d ∈ (analyzeResults labels texts objects).objects,
      ∃ o ∈ objects, (1 : Rat)/2 < o.score ∧
        d = { name := o.name, confidence := jsRound (o.score * 100)
              category := "detected_object" }) ∧
    (∀ texts' : List TextAnnotation,
      (analyzeResults labels texts' objects).foodItems =
        (analyzeResults labels texts objects).foodItems) ∧
    (texts = [] → (analyzeResults labels texts objects).extractedText = none) ∧
    (∀ t ts, texts = t :: ts →
      (analyzeResults labels texts objects).extractedText =
        some { fullText := jsOrStr t.description ""
               detectedWords :=
                 ts.map (fun w =>
                   { text := w.description
                     confidence := jsRound (jsOrRat w.confidence (4/5) * 100) }) }) := by
  refine ⟨rfl, rfl, ?_, ?_, fun texts2 => rfl, ?_, ?_⟩
  · intro f hf
    simp only [analyzeResults, List.mem_map, List.mem_filter] at hf
    obtain ⟨l, ⟨hl, hsc⟩, rfl⟩ := hf
    exact ⟨l, hl, of_decide_eq_true hsc, rfl⟩
  · intro d hd
    simp only [analyzeResults, List.mem_map, List.mem_filter] at hd
    obtain ⟨o, ⟨ho, hsc⟩, rfl⟩ := hd
    exact ⟨o, ho, of_decide_eq_true hsc, rfl⟩
  · intro ht; subst ht; rfl
  · intro t ts ht; subst ht; rfl

/-- Witness labels for C4: the spec's scenario label plus one below
threshold. -/
def wLabelsC4 : List LabelAnnotation :=
  [{ description := "Apple", score := 84/100 },
   { description := "Blur", score := 55/100 }]

/-- Witness objects for C4: one above and one below the 0.5 threshold. -/
def wObjectsC4 : List ObjectAnnotation :=
  [{ name := "Fruit", score := 87/100 },
   { name := "Shadow", score := 1/2 }]

/-- C4 witness: `{description: "Apple", score: 0.84}` becomes the FoodItem
with confidence 84; the 0.55 label and the 0.5 object are excluded; no text
yields no extracted block. -/
theorem structured_normalizer_thresholds_witness :
    (analyzeResults wLabelsC4 [] wObjectsC4).foodItems =
      [{ name := some "Apple", confidence := some 84
         category := some "detected_food" }] ∧
    (analyzeResults wLabelsC4 [] wObjectsC4).objects =
      [{ name := "Fruit", confidence := 87, category := "detected_object" }] ∧
    (analyzeResults wLabelsC4 [] wObjectsC4).extractedText = none := by
  have h := structured_normalizer_thresholds wLabelsC4 [] wObjectsC4
  refine ⟨?_, ?_, h.2.2.2.2.2.1 rfl⟩
  · rw [h.1]; norm_num [wLabelsC4, List.filter, jsRound]
  · rw [h.2.1]; norm_num [wObjectsC4, List.filter, jsRound]

/-- Length of an indexed map. -/
lemma mapWithIdx_length (f : Nat → α → β) :
    ∀ (k : Nat) (l : List α), (mapWithIdx f k l).length = l.length := by
  intro k l
  induction l generalizing k with
  | nil => rfl
  | cons a t ih => simp [mapWithIdx, ih]

/-- Indexing an indexed map. -/
lemma mapWithIdx_getElem? (f : Nat → α → β) :
    ∀ (k i : Nat) (l : List α), (mapWithIdx f k l)[i]? = l[i]?.map (f (k + i)) := by
  intro k i l
  induction l generalizing k i with
  | nil => simp [mapWithIdx]
  | cons a t ih =>
    cases i with
    | zero => simp [mapWithIdx]
    | succ n =>
      have hrec := ih (k + 1) n
      simp only [mapWithIdx, List.getElem?_cons_succ]
      rw [hrec]
      have harg : k + 1 + n = k + (n + 1) := by omega
      rw [harg]

/-- C6.  For every generative response text, the heuristic fallback returns at
most 5 items whose synthetic confidences follow `max(60, 95 - 10·index)`:
they start at 95, decrease by 10 per item, are non-increasing across the
output and are bounded below at 60. -/
theorem heuristic_extraction_bounds (text : String) :
    (extractFoodItems text).length ≤ 5 ∧
    (∀ (i : Nat) (f : FoodItem), (extractFoodItems text)[i]? = some f →
      f.confidence = some (max 60 (95 - 10 * (i : Int)))) ∧
    (∀ (i j : Nat) (fa fb : FoodItem), i ≤ j →
      (extractFoodItems text)[i]? = some fa →
      (extractFoodItems text)[j]? = some fb →
      fb.confidence.getD 0 ≤ fa.confidence.getD 0) ∧
    (∀ (i : Nat) (f : FoodItem), (extractFoodItems text)[i]? = some f →
      60 ≤ f.confidence.getD 0) ∧
    (∀ f : FoodItem, (extractFoodItems text)[0]? = some f →
      f.confidence = some 95) := by
  have hconf : ∀ (i : Nat) (f : FoodItem), (extractFoodItems text)[i]? = some f →
      f.confidence = some (max 60 (95 - 10 * (i : Int))) := by
    intro i f hf
    have hidx := mapWithIdx_getElem?
      (fun i nm =>
        ({ name := some nm
           confidence := some (max 60 (95 - 10 * (i : Int)))
           category := some "detected_food" } : FoodItem)) 0 i
      ((rawFoodItems text).take 5)
    simp only [extractFoodItems] at hf
    rw [hidx, Nat.zero_add] at hf
    rcases Option.map_eq_some'.mp hf with ⟨nm, hnm, rfl⟩
    rfl
  refine ⟨?_, hconf, ?_, ?_, ?_⟩
  · have hlen : (extractFoodItems text).length = ((rawFoodItems text).take 5).length :=
      mapWithIdx_length _ 0 _
    rw [hlen]
    exact List.length_take_le 5 _
  · intro i j fa fb hij hfa hfb
    rw [hconf i fa hfa, hconf j fb hfb]
    simp only [Option.getD_some]
    have hji : (95 - 10 * (j : Int)) ≤ 95 - 10 * (i : Int) := by omega
    exact max_le_max (le_refl 60) hji
  · intro i f hf
    rw [hconf i f hf]
    simp only [Option.getD_some]
    exact le_max_left _ _
  · intro f hf
    rw [hconf 0 f hf]
    decide

/-- C6 witness: "food items: a, b" yields two items with confidences 95 and
85, the first obtained through the confidence formula. -/
theorem heuristic_extraction_bounds_witness :
    (extractFoodItems "food items: a, b").length ≤ 5 ∧
    (extractFoodItems "food items: a, b")[0]? =
      some { name := some "a", confidence := some 95
             category := some "detected_food" } ∧
    (extractFoodItems "food items: a, b")[1]? =
      some { name := some "b", confidence := some 85
             category := some "detected_food" } ∧
    ({ name := some "a", confidence := some 95
       category := some "detected_food" } : FoodItem).confidence =
      some (max 60 (95 - 10 * ((0 : Nat) : Int))) := by
  have h := heuristic_extraction_bounds "food items: a, b"
  have h0 : (extractFoodItems "food items: a, b")[0]? =
      some { name := some "a", confidence := some 95
             category := some "detected_food" } := by decide
  have h1 : (extractFoodItems "food items: a, b")[1]? =
      some { name := some "b", confidence := some 85
             category := some "detected_food" } := by decide
  exact ⟨h.1, h0, h1, h.2.1 0 _ h0⟩

/-- C9.  Normalization of a generative response is a pure function of the
parse outcome and the raw text: two runs on equal inputs return identical
FoodItem sequences (the embedding is deterministic by construction — the
source touches no state in this path). -/
theorem normalization_deterministic (parsed1 parsed2 : Option StructuredData)
    (text1 text2 : String) (hp : parsed1 = parsed2) (ht : text1 = text2) :
    analyzeOpenAIFoodItems parsed1 text1 = analyzeOpenAIFoodItems parsed2 text2 := by
  subst hp
  subst ht
  rfl

/-- C9 witness: two runs on the same unparseable response agree. -/
theorem normalization_deterministic_witness :
    analyzeOpenAIFoodItems none "some prose answer" =
      analyzeOpenAIFoodItems none "some prose answer" :=
  normalization_deterministic none none "some prose answer" "some prose answer" rfl rfl

/-- C7.  Normalization is total on malformed provider output: the auxiliary
extractors return `null` (never throw) when no pattern matches, and a
JSON-parse failure degrades to the heuristic path — the result is the
heuristic item list re-passed through the legacy mapping, hence always a
(possibly empty) FoodItem list.  (Totality itself holds by construction:
every partial JS access is `||`-guarded and the embedding is a total
function.) -/
theorem normalization_total (text : String) :
    (nutritionCalories text = none → nutritionProtein text = none →
      nutritionCarbs text = none → nutritionFat text = none →
      extractNutritionalInfo text = none) ∧
    (matchCapture "portion" none text = none →
      matchCapture "serving" none text = none →
      matchCapture "amount" none text = none →
      extractPortionInfo text = none) ∧
    analyzeOpenAIFoodItems none text =
      (extractFoodItems text).map (fun it =>
        { name := jsOrOpt it.name none
          confidence := some (jsOrInt it.confidence 80)
          category := some "detected_food" }) := by
  refine ⟨?_, ?_, ?_⟩
  · intro h1 h2 h3 h4
    simp [extractNutritionalInfo, h1, h2, h3, h4]
  · intro h1 h2 h3
    simp [extractPortionInfo, h1, h2, h3]
  · simp only [analyzeOpenAIFoodItems, extractCompatibleFoodItems,
      fallbackStructured, List.map_map]
    rfl

/-- C7 witness: on text with no nutrition, portion or food-item pattern, both
extractors return `null` and the degraded normalization is empty. -/
theorem normalization_total_witness :
    nutritionCalories "hello world" = none ∧
    nutritionProtein "hello world" = none ∧
    nutritionCarbs "hello world" = none ∧
    nutritionFat "hello world" = none ∧
    extractNutritionalInfo "hello world" = none ∧
    matchCapture "portion" none "hello world" = none ∧
    matchCapture "serving" none "hello world" = none ∧
    matchCapture "amount" none "hello world" = none ∧
    extractPortionInfo "hello world" = none ∧
    analyzeOpenAIFoodItems none "hello world" = [] := by
  have h := normalization_total "hello world"
  refine ⟨rfl, rfl, rfl, rfl, h.1 rfl rfl rfl rfl, rfl, rfl, rfl,
    h.2.1 rfl rfl rfl, ?_⟩
  rw [h.2.2]
  rfl

end ChoicesCount
